import Mathlib

/-!
Verification of the OpenMM-Plumed-MPI reference kernel
(`src/platforms/reference/src/ReferencePlumedKernels.cpp`) and the force
descriptor (`src/openmmapi/include/PlumedForce.h`).

The kernel is modelled as a state machine whose observable behaviour is the
ordered list of `plumed_cmd` invocations it issues (a command trace), plus
the mutable fields of `ReferenceCalcPlumedForceKernel`.  Numeric `double`
values are embedded as rationals; machine `int` values as `Int`.
-/

/-- One `plumed_cmd(plumedmain, "...", payload)` invocation, identified by its
command string, carrying the payload where the payload is data this
repository computes (other payloads are opaque pointers into OpenMM). -/
inductive PCmd where
  | grexSetMPIIntercomm
  | grexSetMPIIntracomm
  | grexInit
  | setMPIComm
  | getApiVersion
  | setRealPrecision (p : Int)
  | setMDEnergyUnits (c : Rat)
  | setMDLengthUnits (c : Rat)
  | setMDTimeUnits (c : Rat)
  | setMDEngine (engine : String)
  | setLog
  | setNatoms (n : Nat)
  | setTimestep (dt : Rat)
  | setKbT (kT : Rat)
  | setRestart (r : Bool)
  | initCmd
  | readInputLines (script : String)
  | readInputLine (line : String)
  | setStep (s : Int)
  | setMasses
  | setCharges
  | setPositions
  | setForces
  | setBox
  | setVirial
  | prepareCalc
  | performCalcNoUpdate
  | update
  | getBias
deriving DecidableEq, Repr

/-- The mutable fields of `ReferenceCalcPlumedForceKernel`
(ReferencePlumedKernels.h / .cpp): `hasInitialized`, `lastStepIndex`,
`masses`, `charges`, `usesPeriodic`. -/
structure KernelState where
  hasInitialized : Bool
  lastStepIndex : Int
  masses : List Rat
  charges : List Rat
  usesPeriodic : Bool
deriving DecidableEq, Repr

/-- The state established by the constructor
`ReferenceCalcPlumedForceKernel::ReferenceCalcPlumedForceKernel` (line 63):
`hasInitialized(false), lastStepIndex(0)`; the vectors default to empty.
(`usesPeriodic` is left uninitialized in C++ and only assigned inside
`ReferenceCalcPlumedForceKernel::initialize`; we give it a default that is never read before that
assignment.) -/
def initialKernelState : KernelState :=
  { hasInitialized := false, lastStepIndex := 0, masses := [], charges := [],
    usesPeriodic := false }

/-- A force attached to the `OpenMM::System`: either a `NonbondedForce`
(carrying the per-particle charges read back by `getParticleParameters`) or
any other force type (for which the `dynamic_cast` yields NULL). -/
inductive MMForce where
  | nonbonded (charges : List Rat)
  | other
deriving DecidableEq, Repr

/-- True exactly when the `dynamic_cast<const NonbondedForce*>` succeeds. -/
def MMForce.isNonbonded : MMForce → Bool
  | MMForce.nonbonded _ => true
  | MMForce.other => false

/-- The parts of `OpenMM::System` read by the kernel: per-particle masses
(`getNumParticles` is their count, `getParticleMass(i)` their entries), the
attached forces (`getNumForces` / `getForce`), and
`usesPeriodicBoundaryConditions()`. -/
structure MMSystem where
  particleMasses : List Rat
  forces : List MMForce
  periodic : Bool
deriving DecidableEq, Repr

/-- The `PlumedForce` descriptor (PlumedForce.h): the script text, the
optional temperature (negative means undefined, default -1), the optional
per-particle mass overrides (empty means use System masses), and the
restart flag (default false).  The MPI communicators and the log stream
are opaque handles, not data, and are omitted. -/
structure PlumedForce where
  script : String
  temperature : Rat
  masses : List Rat
  restart : Bool
deriving DecidableEq, Repr

def PlumedForce.getScript (f : PlumedForce) : String := f.script

def PlumedForce.getTemperature (f : PlumedForce) : Rat := f.temperature

def PlumedForce.getMasses (f : PlumedForce) : List Rat := f.masses

def PlumedForce.getRestart (f : PlumedForce) : Bool := f.restart

/-- `PlumedForce::usesPeriodicBoundaryConditions` (PlumedForce.h lines
83-85): the body is literally `return false`. -/
def PlumedForce.usesPeriodicBoundaryConditions (_f : PlumedForce) : Bool :=
  false

/-- The `BOLTZ` constant of SimTKOpenMMRealType.h (Boltzmann constant times
Avogadro's number over 1000), in kJ/mol/K: about 8.31446e-3.  Only its
exact value as a positive rational matters here. -/
def BOLTZ : Rat := 831446261815324 / 100000000000000000

/-- True for the characters of the `strtok` delimiter set `"\r\n"`. -/
def isLineDelim (c : Char) : Bool := c = '\r' || c = '\n'

/-- Helper for `strtokLines`: scans the character list, accumulating the
current token in reverse. -/
def splitTokensAux (cs : List Char) (cur : List Char) : List (List Char) :=
  match cs with
  | [] => if cur.isEmpty then [] else [cur.reverse]
  | c :: rest =>
    if isLineDelim c then
      if cur.isEmpty then splitTokensAux rest []
      else cur.reverse :: splitTokensAux rest []
    else splitTokensAux rest (c :: cur)

/-- The token sequence produced by the `strtok(.., "\r\n")` loop of
`ReferenceCalcPlumedForceKernel::initialize` (lines 116-122): the maximal non-empty runs of characters that
contain no CR and no LF, in order.  Runs of consecutive delimiters yield no
empty tokens, exactly as `strtok` behaves. -/
def strtokLines (s : String) : List String :=
  (splitTokensAux s.data []).map (fun cs => String.mk cs)

/-- Message of the exception thrown by the API version check (line 91). -/
def apiVersionErrMsg : String :=
  "Unsupported API version.  Upgrade PLUMED to a newer version."

/-- Message of the exception thrown by the mass-count check (line 136). -/
def massMismatchErrMsg : String :=
  "The number of PLUMED masses is different from the number of particles!"

/-- Lines 128-136 of `ReferenceCalcPlumedForceKernel::initialize`: resolve the effective per-particle mass
array from the System masses and the descriptor overrides, or fail. -/
def resolveMasses (sysMasses : List Rat) (overrides : List Rat) :
    Except String (List Rat) :=
  if overrides.length = 0 then Except.ok sysMasses
  else if overrides.length = sysMasses.length then Except.ok overrides
  else Except.error massMismatchErrMsg

/-- Lines 140-148 of `ReferenceCalcPlumedForceKernel::initialize`: loop over the System's forces; every
`NonbondedForce` found resizes the charge cache to `numParticles` and fills
it from `getParticleParameters` (a later NonbondedForce overwrites an
earlier one); other forces leave the cache unchanged. -/
def resolveCharges (numParticles : Nat) (forces : List MMForce)
    (acc : List Rat) : List Rat :=
  match forces with
  | [] => acc
  | MMForce.nonbonded qs :: rest =>
      resolveCharges numParticles rest
        ((List.range numParticles).map (fun i => qs.getD i 0))
  | MMForce.other :: rest => resolveCharges numParticles rest acc

/-- The `plumed_cmd` calls of `ReferenceCalcPlumedForceKernel::initialize` up to and including the
`getApiVersion` query (lines 82-89): the GREX intercommunicator is set only
on intra-communicator rank 0. -/
def preVersionTrace (intraRank : Int) : List PCmd :=
  (if intraRank = 0 then [PCmd.grexSetMPIIntercomm] else []) ++
  [PCmd.grexSetMPIIntracomm, PCmd.grexInit, PCmd.setMPIComm,
   PCmd.getApiVersion]

/-- The `plumed_cmd` calls of `ReferenceCalcPlumedForceKernel::initialize` from the precision setting down
to the `init` command (lines 92-109): `setKbT` is issued only when
`kT = temperature * BOLTZ` satisfies `kT >= 0` (line 105). -/
def staticParamTrace (numParticles : Nat) (dt : Rat) (force : PlumedForce) :
    List PCmd :=
  [PCmd.setRealPrecision 8, PCmd.setMDEnergyUnits 1, PCmd.setMDLengthUnits 1,
   PCmd.setMDTimeUnits 1, PCmd.setMDEngine ("OpenMM"), PCmd.setLog,
   PCmd.setNatoms numParticles, PCmd.setTimestep dt] ++
  (if 0 ≤ force.getTemperature * BOLTZ
   then [PCmd.setKbT (force.getTemperature * BOLTZ)] else []) ++
  [PCmd.setRestart force.getRestart, PCmd.initCmd]

/-- Lines 110-123 of `ReferenceCalcPlumedForceKernel::initialize`: script ingestion.  For API version
greater than 7 the whole script is submitted with one `readInputLines`
command; otherwise the script is tokenized with `strtok` on CR/LF and each
token is submitted with its own `readInputLine` command, in order. -/
def ingestionCmds (script : String) (apiVersion : Int) : List PCmd :=
  if 7 < apiVersion then [PCmd.readInputLines script]
  else (strtokLines script).map PCmd.readInputLine

/-- The full `plumed_cmd` trace of a run of
`ReferenceCalcPlumedForceKernel::initialize` that passes the API version
check: the pre-version calls, the static-parameter calls, and the script
ingestion calls, in source order (lines 82-123). -/
def initTrace (sys : MMSystem) (force : PlumedForce) (apiVersion : Int)
    (intraRank : Int) (dt : Rat) : List PCmd :=
  preVersionTrace intraRank ++
    staticParamTrace sys.particleMasses.length dt force ++
    ingestionCmds force.getScript apiVersion

/-- `ReferenceCalcPlumedForceKernel::initialize` as a function of the System,
the descriptor, and the environment values the real code queries at run time
(the PLUMED API version, this process's rank in the intra-communicator, and
the integrator step size).  Returns the outcome (the new kernel state, or
the thrown exception's message) together with the ordered trace of
`plumed_cmd` calls issued before returning or throwing.  Note the source
order: script ingestion (lines 110-123) and the `usesPeriodic` assignment
(line 124) happen before the mass-count check (lines 128-136), so the
mass-mismatch throw leaves the full `initTrace` already issued.
`hasInitialized` is set before the version check (line 87); `lastStepIndex`
keeps its constructor value 0. -/
def initKernel (sys : MMSystem) (force : PlumedForce) (apiVersion : Int)
    (intraRank : Int) (dt : Rat) : Except String KernelState × List PCmd :=
  if apiVersion < 4 then
    (Except.error apiVersionErrMsg, preVersionTrace intraRank)
  else
    match resolveMasses sys.particleMasses force.getMasses with
    | Except.error e =>
        (Except.error e, initTrace sys force apiVersion intraRank dt)
    | Except.ok ms =>
        (Except.ok { hasInitialized := true, lastStepIndex := 0,
                     masses := ms,
                     charges :=
                       resolveCharges sys.particleMasses.length sys.forces [],
                     usesPeriodic := sys.periodic },
         initTrace sys force apiVersion intraRank dt)

/-- The `plumed_cmd` calls of `execute` before the update decision (lines
156-174): `setCharges` is issued only when the charge cache is non-empty
(line 158), `setBox` only when the System is periodic (line 164). -/
def perStepTrace (st : KernelState) (step : Int) : List PCmd :=
  [PCmd.setStep step, PCmd.setMasses] ++
  (if 0 < st.charges.length then [PCmd.setCharges] else []) ++
  [PCmd.setPositions, PCmd.setForces] ++
  (if st.usesPeriodic then [PCmd.setBox] else []) ++
  [PCmd.setVirial, PCmd.prepareCalc, PCmd.performCalcNoUpdate]

/-- `ReferenceCalcPlumedForceKernel::execute` (lines 151-182) for a given
current step index: issues the per-step commands, then the `update` command
exactly when `step != lastStepIndex`, recording the new step index in that
case (lines 175-178), and finally queries `getBias`.  Returns the new
kernel state and the ordered command trace of this call. -/
def execute (st : KernelState) (step : Int) : KernelState × List PCmd :=
  if step ≠ st.lastStepIndex then
    ({ st with lastStepIndex := step },
     perStepTrace st step ++ [PCmd.update, PCmd.getBias])
  else
    (st, perStepTrace st step ++ [PCmd.getBias])

/-- A sequence of `execute` calls with the given step indices, threading the
kernel state and concatenating the command traces. -/
def executeSeq (st : KernelState) (steps : List Int) :
    KernelState × List PCmd :=
  match steps with
  | [] => (st, [])
  | s :: rest =>
    let p := execute st s
    let q := executeSeq p.1 rest
    (q.1, p.2 ++ q.2)

/-- True exactly for the history-advancing `update` command. -/
def isUpdateCmd : PCmd → Bool
  | PCmd.update => true
  | _ => false

/-- True exactly for the script-ingestion commands `readInputLines` and
`readInputLine`. -/
def isIngestCmd : PCmd → Bool
  | PCmd.readInputLines _ => true
  | PCmd.readInputLine _ => true
  | _ => false

/-- True exactly for the `setCharges` command. -/
def isSetChargesCmd : PCmd → Bool
  | PCmd.setCharges => true
  | _ => false

/-- True exactly for the `setBox` command. -/
def isSetBoxCmd : PCmd → Bool
  | PCmd.setBox => true
  | _ => false

/-- True exactly for the `setKbT` command (any payload). -/
def isSetKbTCmd : PCmd → Bool
  | PCmd.setKbT _ => true
  | _ => false

/-- Number of history-advancing `update` commands in a trace. -/
def countUpdates (tr : List PCmd) : Nat := tr.countP isUpdateCmd

/-- A concrete one-particle, force-free, non-periodic System. -/
def sys0 : MMSystem :=
  { particleMasses := [1], forces := [], periodic := false }

/-- The same one-particle System, but periodic. -/
def sysP : MMSystem :=
  { particleMasses := [1], forces := [], periodic := true }

/-- A concrete descriptor with empty script and all defaults. -/
def force0 : PlumedForce :=
  { script := "", temperature := -1, masses := [], restart := false }

/-- A descriptor whose mass-override array has length 2 (wrong for a
one-particle System) and whose script is non-empty. -/
def forceC3 : PlumedForce :=
  { script := "d: DISTANCE ATOMS=1,2", temperature := -1, masses := [5, 6],
    restart := false }

/-- A descriptor with a two-line script (CRLF then LF separators). -/
def forceC5 : PlumedForce :=
  { script := "d: DISTANCE ATOMS=1,2\r\n\nMETAD ARG=d", temperature := -1,
    masses := [], restart := false }

/-- A descriptor with a defined (non-negative) temperature. -/
def forceT : PlumedForce :=
  { script := "", temperature := 300, masses := [], restart := false }

/-- The kernel state produced by initializing `sys0` with `force0`. -/
def st0 : KernelState :=
  { hasInitialized := true, lastStepIndex := 0, masses := [1], charges := [],
    usesPeriodic := false }

/-- The kernel state produced by initializing `sysP` with `force0`. -/
def stP : KernelState :=
  { hasInitialized := true, lastStepIndex := 0, masses := [1], charges := [],
    usesPeriodic := true }


/-! ### Helper lemmas about `execute` and `executeSeq` -/

theorem execute_fst_lastStepIndex (st : KernelState) (s : Int) :
    (execute st s).1.lastStepIndex = s := by
  unfold execute
  split
  · rfl
  · rename_i h
    simp only [ne_eq, not_not] at h
    exact h.symm

theorem execute_fst_charges (st : KernelState) (s : Int) :
    (execute st s).1.charges = st.charges := by
  unfold execute; split <;> rfl

theorem execute_fst_usesPeriodic (st : KernelState) (s : Int) :
    (execute st s).1.usesPeriodic = st.usesPeriodic := by
  unfold execute; split <;> rfl

theorem perStepTrace_countP_update (st : KernelState) (s : Int) :
    (perStepTrace st s).countP isUpdateCmd = 0 := by
  unfold perStepTrace
  by_cases hc : 0 < st.charges.length <;> by_cases hp : st.usesPeriodic <;>
    simp [hc, hp, List.countP_append, List.countP_cons, isUpdateCmd]

theorem perStepTrace_countP_setBox (st : KernelState) (s : Int) :
    (perStepTrace st s).countP isSetBoxCmd =
      if st.usesPeriodic then 1 else 0 := by
  unfold perStepTrace
  by_cases hc : 0 < st.charges.length <;> by_cases hp : st.usesPeriodic <;>
    simp [hc, hp, List.countP_append, List.countP_cons, isSetBoxCmd]

theorem perStepTrace_countP_setCharges (st : KernelState) (s : Int) :
    (perStepTrace st s).countP isSetChargesCmd =
      if 0 < st.charges.length then 1 else 0 := by
  unfold perStepTrace
  by_cases hc : 0 < st.charges.length <;> by_cases hp : st.usesPeriodic <;>
    simp [hc, hp, List.countP_append, List.countP_cons, isSetChargesCmd]

theorem execute_countP_update (st : KernelState) (s : Int) :
    countUpdates (execute st s).2 = if s = st.lastStepIndex then 0 else 1 := by
  unfold execute countUpdates
  by_cases h : s = st.lastStepIndex <;>
    simp [h, List.countP_append, List.countP_cons, perStepTrace_countP_update,
      isUpdateCmd]

theorem execute_countP_setBox (st : KernelState) (s : Int) :
    (execute st s).2.countP isSetBoxCmd =
      if st.usesPeriodic then 1 else 0 := by
  unfold execute
  split <;>
    simp [List.countP_append, List.countP_cons, perStepTrace_countP_setBox,
      isSetBoxCmd]

theorem execute_countP_setCharges (st : KernelState) (s : Int) :
    (execute st s).2.countP isSetChargesCmd =
      if 0 < st.charges.length then 1 else 0 := by
  unfold execute
  split <;>
    simp [List.countP_append, List.countP_cons,
      perStepTrace_countP_setCharges, isSetChargesCmd]

theorem executeSeq_countP_setBox (st : KernelState) (steps : List Int) :
    (executeSeq st steps).2.countP isSetBoxCmd =
      if st.usesPeriodic then steps.length else 0 := by
  induction steps generalizing st with
  | nil => by_cases h : st.usesPeriodic <;> simp [executeSeq, h]
  | cons s rest ih =>
    simp only [executeSeq, List.countP_append]
    rw [execute_countP_setBox, ih, execute_fst_usesPeriodic]
    by_cases h : st.usesPeriodic <;> · simp [h]; try omega

theorem executeSeq_countP_setCharges_of_empty (st : KernelState)
    (steps : List Int) (h : st.charges = []) :
    (executeSeq st steps).2.countP isSetChargesCmd = 0 := by
  induction steps generalizing st with
  | nil => simp [executeSeq]
  | cons s rest ih =>
    simp only [executeSeq, List.countP_append]
    rw [execute_countP_setCharges,
      ih (execute st s).1 (by rw [execute_fst_charges]; exact h)]
    simp [h]

theorem executeSeq_countUpdates_chain (steps : List Int) (st : KernelState)
    (h : List.Chain' (fun a b => a < b) steps) :
    countUpdates (executeSeq st steps).2 =
      steps.length - (if steps.head? = some st.lastStepIndex then 1 else 0) := by
  induction steps generalizing st with
  | nil => simp [executeSeq, countUpdates]
  | cons s rest ih =>
    have htail : List.Chain' (fun a b => a < b) rest := h.tail
    have hhead : rest.head? ≠ some s := by
      cases rest with
      | nil => simp
      | cons r rs =>
        have hlt : s < r := (List.chain'_cons.mp h).1
        simp only [List.head?_cons, ne_eq, Option.some.injEq]
        omega
    have hih := ih (execute st s).1 htail
    rw [execute_fst_lastStepIndex, if_neg hhead, Nat.sub_zero] at hih
    have hcu := execute_countP_update st s
    simp only [countUpdates] at hcu
    simp only [executeSeq, countUpdates, List.countP_append] at hih ⊢
    rw [hcu, hih]
    simp only [List.head?_cons, List.length_cons, Option.some.injEq]
    by_cases h2 : s = st.lastStepIndex <;> · simp [h2]; try omega

theorem executeSeq_countUpdates_replicate_of_eq (s : Int) (n : Nat)
    (st : KernelState) (h : st.lastStepIndex = s) :
    countUpdates (executeSeq st (List.replicate n s)).2 = 0 := by
  induction n generalizing st with
  | zero => simp [executeSeq, countUpdates]
  | succ m ih =>
    have hcu := execute_countP_update st s
    simp only [countUpdates] at hcu
    simp only [List.replicate_succ, executeSeq, countUpdates,
      List.countP_append]
    rw [hcu, if_pos h.symm]
    have := ih (execute st s).1 (execute_fst_lastStepIndex st s)
    simp only [countUpdates] at this
    simp [this]

/-! ### Helper lemmas about `initKernel` and its trace -/

theorem initKernel_ok_fields (sys : MMSystem) (force : PlumedForce)
    (apiVersion intraRank : Int) (dt : Rat) (st : KernelState)
    (hst : (initKernel sys force apiVersion intraRank dt).1 = Except.ok st) :
    st.lastStepIndex = 0 ∧
    st.charges = resolveCharges sys.particleMasses.length sys.forces [] ∧
    st.usesPeriodic = sys.periodic ∧
    resolveMasses sys.particleMasses force.getMasses = Except.ok st.masses ∧
    ¬ apiVersion < 4 := by
  unfold initKernel at hst
  split at hst
  · exact absurd hst (by simp)
  · rename_i hv
    split at hst
    · simp at hst
    · rename_i ms hms
      simp only [Except.ok.injEq] at hst
      subst hst
      exact ⟨rfl, rfl, rfl, hms, hv⟩

theorem initKernel_snd_of_version (sys : MMSystem) (force : PlumedForce)
    (apiVersion intraRank : Int) (dt : Rat) (hv : ¬ apiVersion < 4) :
    (initKernel sys force apiVersion intraRank dt).2 =
      initTrace sys force apiVersion intraRank dt := by
  unfold initKernel
  rw [if_neg hv]
  split <;> rfl

theorem resolveCharges_of_no_nonbonded (numParticles : Nat)
    (forces : List MMForce) (acc : List Rat)
    (h : ∀ f ∈ forces, f.isNonbonded = false) :
    resolveCharges numParticles forces acc = acc := by
  induction forces generalizing acc with
  | nil => rfl
  | cons f rest ih =>
    cases f with
    | nonbonded qs =>
      have hf := h (MMForce.nonbonded qs) (List.mem_cons_self _ _)
      simp [MMForce.isNonbonded] at hf
    | other =>
      simp only [resolveCharges]
      exact ih acc (fun g hg => h g (List.mem_cons_of_mem _ hg))

theorem preVersionTrace_countP_setKbT (intraRank : Int) :
    (preVersionTrace intraRank).countP isSetKbTCmd = 0 := by
  unfold preVersionTrace
  split <;> rfl

theorem preVersionTrace_filter_ingest (intraRank : Int) :
    (preVersionTrace intraRank).filter isIngestCmd = [] := by
  unfold preVersionTrace
  split <;> rfl

theorem staticParamTrace_countP_setKbT (n : Nat) (dt : Rat)
    (force : PlumedForce) :
    (staticParamTrace n dt force).countP isSetKbTCmd =
      if 0 ≤ force.getTemperature * BOLTZ then 1 else 0 := by
  unfold staticParamTrace
  by_cases hc : 0 ≤ force.getTemperature * BOLTZ <;>
    simp [hc, List.countP_append, List.countP_cons, isSetKbTCmd]

theorem staticParamTrace_filter_ingest (n : Nat) (dt : Rat)
    (force : PlumedForce) :
    (staticParamTrace n dt force).filter isIngestCmd = [] := by
  unfold staticParamTrace
  by_cases hc : 0 ≤ force.getTemperature * BOLTZ <;>
    simp [hc, List.filter_append, isIngestCmd]

theorem ingestionCmds_countP_setKbT (script : String) (v : Int) :
    (ingestionCmds script v).countP isSetKbTCmd = 0 := by
  unfold ingestionCmds
  split
  · rfl
  · rw [List.countP_eq_zero]
    intro a ha
    obtain ⟨l, _, rfl⟩ := List.mem_map.mp ha
    simp [isSetKbTCmd]

theorem ingestionCmds_filter_ingest (script : String) (v : Int) :
    (ingestionCmds script v).filter isIngestCmd = ingestionCmds script v := by
  unfold ingestionCmds
  split
  · rfl
  · rw [List.filter_eq_self]
    intro a ha
    obtain ⟨l, _, rfl⟩ := List.mem_map.mp ha
    rfl

theorem resolveMasses_error_eq (a b : List Rat) (e : String)
    (h : resolveMasses a b = Except.error e) : e = massMismatchErrMsg := by
  unfold resolveMasses at h
  split at h
  · simp at h
  · split at h
    · simp at h
    · simp only [Except.error.injEq] at h
      exact h.symm

/-! ### Claim theorems -/

/-- Claim C1, counterexample: the claim says the update command is issued
exactly once per distinct index of a monotonically increasing sequence,
"including the first index of the sequence, whatever its value".  But the
constructor initializes `lastStepIndex` to 0, so the strictly increasing
one-element sequence `[0]`, run on a freshly initialized kernel, issues 0
update commands instead of 1. -/
theorem C1_counterexample :
    (initKernel sys0 force0 8 0 1).1 = Except.ok st0 ∧
    List.Chain' (fun a b => a < b) ([0] : List Int) ∧
    countUpdates (executeSeq st0 [0]).2 = 0 :=
  ⟨rfl, by simp, by decide⟩

/-- Claim C1 (amended): for a freshly initialized kernel and a sequence of
`execute` calls with strictly increasing step indices, the update command is
issued exactly once per index, except that no update is issued for the
first index when it equals 0 (the `lastStepIndex` value set by the
constructor). -/
theorem C1_amended_updates_per_distinct_step (sys : MMSystem)
    (force : PlumedForce) (apiVersion intraRank : Int) (dt : Rat)
    (st : KernelState) (steps : List Int)
    (hst : (initKernel sys force apiVersion intraRank dt).1 = Except.ok st)
    (hmono : List.Chain' (fun a b => a < b) steps) :
    countUpdates (executeSeq st steps).2 =
      steps.length - (if steps.head? = some 0 then 1 else 0) := by
  have h0 := (initKernel_ok_fields sys force apiVersion intraRank dt st hst).1
  rw [executeSeq_countUpdates_chain steps st hmono, h0]

/-- Witness for C1 (amended): a concrete initialized kernel run on the
strictly increasing steps `[0, 1, 2]` issues `3 - 1 = 2` updates. -/
theorem C1_witness :
    ((initKernel sys0 force0 8 0 1).1 = Except.ok st0 ∧
     List.Chain' (fun a b => a < b) ([0, 1, 2] : List Int)) ∧
    countUpdates (executeSeq st0 [0, 1, 2]).2 =
      ([0, 1, 2] : List Int).length -
        (if ([0, 1, 2] : List Int).head? = some 0 then 1 else 0) :=
  ⟨⟨rfl, by norm_num [List.chain'_cons, List.chain'_singleton]⟩,
   C1_amended_updates_per_distinct_step sys0 force0 8 0 1 st0 [0, 1, 2] rfl
     (by norm_num [List.chain'_cons, List.chain'_singleton])⟩

/-- Claim C2: any number of consecutive `execute` calls carrying the same
step index issue the history-advancing update command at most once,
whatever the kernel state they start from. -/
theorem C2_update_at_most_once_per_step (st : KernelState) (s : Int)
    (n : Nat) :
    countUpdates (executeSeq st (List.replicate n s)).2 ≤ 1 := by
  cases n with
  | zero => simp [executeSeq, countUpdates]
  | succ m =>
    have hcu := execute_countP_update st s
    have hrest := executeSeq_countUpdates_replicate_of_eq s m (execute st s).1
      (execute_fst_lastStepIndex st s)
    simp only [countUpdates] at hcu hrest ⊢
    simp only [List.replicate_succ, executeSeq, List.countP_append]
    rw [hcu, hrest]
    split <;> omega

/-- Claim C3, counterexample: the claim says a mass-override length mismatch
makes initialization fail *without* performing script ingestion.  The
failure does occur, but in the source the script ingestion (lines 110-123)
precedes the mass-count check (lines 128-136): for a one-particle System
and a two-entry override array, the failing initialization's command trace
already contains an ingestion command. -/
theorem C3_counterexample :
    (initKernel sys0 forceC3 8 0 1).1 = Except.error massMismatchErrMsg ∧
    0 < (initKernel sys0 forceC3 8 0 1).2.countP isIngestCmd := by
  refine ⟨rfl, ?_⟩
  rw [initKernel_snd_of_version _ _ _ _ _ (by norm_num)]
  unfold initTrace
  rw [List.countP_append]
  have hing : (ingestionCmds forceC3.getScript 8).countP isIngestCmd = 1 := by
    unfold ingestionCmds
    rw [if_pos (by norm_num)]
    rfl
  omega

/-- Claim C3 (amended): for a mass-override array whose length is neither 0
nor the particle count (and an API version passing the version check),
initialization fails with the descriptive mass-mismatch error, but script
ingestion has already been performed: the full ingestion command sequence
is a suffix of the failing call's command trace. -/
theorem C3_amended_mass_mismatch_after_ingestion (sys : MMSystem)
    (force : PlumedForce) (apiVersion intraRank : Int) (dt : Rat)
    (hv : 4 ≤ apiVersion) (h0 : force.getMasses.length ≠ 0)
    (hN : force.getMasses.length ≠ sys.particleMasses.length) :
    (initKernel sys force apiVersion intraRank dt).1 =
      Except.error massMismatchErrMsg ∧
    ingestionCmds force.getScript apiVersion <:+
      (initKernel sys force apiVersion intraRank dt).2 := by
  have hv4 : ¬ apiVersion < 4 := by omega
  constructor
  · unfold initKernel
    rw [if_neg hv4]
    split
    · rename_i e he
      rw [resolveMasses_error_eq _ _ _ he]
    · rename_i ms hms
      unfold resolveMasses at hms
      rw [if_neg h0, if_neg hN] at hms
      simp at hms
  · rw [initKernel_snd_of_version _ _ _ _ _ hv4]
    unfold initTrace
    exact List.suffix_append _ _

/-- Witness for C3 (amended): concrete instantiation with a one-particle
System, a two-entry override, and API version 8. -/
theorem C3_witness :
    ((4:Int) ≤ 8 ∧ forceC3.getMasses.length ≠ 0 ∧
      forceC3.getMasses.length ≠ sys0.particleMasses.length) ∧
    ((initKernel sys0 forceC3 8 0 1).1 = Except.error massMismatchErrMsg ∧
     ingestionCmds forceC3.getScript 8 <:+ (initKernel sys0 forceC3 8 0 1).2) :=
  ⟨⟨by decide, by decide, by decide⟩,
   C3_amended_mass_mismatch_after_ingestion sys0 forceC3 8 0 1 (by decide)
     (by decide) (by decide)⟩

/-- Claim C4: the effective mass array is the System's masses when the
override array is empty, the override array verbatim when its length equals
the particle count, and otherwise initialization fails with the
mass-mismatch error. -/
theorem C4_mass_resolution (sys : MMSystem) (force : PlumedForce)
    (apiVersion intraRank : Int) (dt : Rat) (hv : 4 ≤ apiVersion) :
    (force.getMasses = [] →
      ∃ st, (initKernel sys force apiVersion intraRank dt).1 = Except.ok st ∧
        st.masses = sys.particleMasses) ∧
    (force.getMasses.length = sys.particleMasses.length →
      ∃ st, (initKernel sys force apiVersion intraRank dt).1 = Except.ok st ∧
        st.masses = force.getMasses) ∧
    (force.getMasses ≠ [] →
      force.getMasses.length ≠ sys.particleMasses.length →
      (initKernel sys force apiVersion intraRank dt).1 =
        Except.error massMismatchErrMsg) := by
  have hv4 : ¬ apiVersion < 4 := by omega
  refine ⟨?_, ?_, ?_⟩
  · intro h
    have hres : resolveMasses sys.particleMasses force.getMasses =
        Except.ok sys.particleMasses := by
      unfold resolveMasses
      rw [if_pos (by rw [h]; rfl)]
    refine ⟨{ hasInitialized := true, lastStepIndex := 0,
              masses := sys.particleMasses,
              charges := resolveCharges sys.particleMasses.length sys.forces [],
              usesPeriodic := sys.periodic }, ?_, rfl⟩
    unfold initKernel
    rw [if_neg hv4, hres]
  · intro h
    by_cases h0 : force.getMasses.length = 0
    · have hfm : force.getMasses = [] := List.length_eq_zero.mp h0
      have hsm : sys.particleMasses = [] := List.length_eq_zero.mp (by omega)
      have hres : resolveMasses sys.particleMasses force.getMasses =
          Except.ok sys.particleMasses := by
        unfold resolveMasses
        rw [if_pos h0]
      refine ⟨{ hasInitialized := true, lastStepIndex := 0,
                masses := sys.particleMasses,
                charges :=
                  resolveCharges sys.particleMasses.length sys.forces [],
                usesPeriodic := sys.periodic }, ?_, ?_⟩
      · unfold initKernel
        rw [if_neg hv4, hres]
      · rw [hsm, hfm]
    · have hres : resolveMasses sys.particleMasses force.getMasses =
          Except.ok force.getMasses := by
        unfold resolveMasses
        rw [if_neg h0, if_pos h]
      refine ⟨{ hasInitialized := true, lastStepIndex := 0,
                masses := force.getMasses,
                charges :=
                  resolveCharges sys.particleMasses.length sys.forces [],
                usesPeriodic := sys.periodic }, ?_, rfl⟩
      unfold initKernel
      rw [if_neg hv4, hres]
  · intro h0 hN
    have h0' : force.getMasses.length ≠ 0 :=
      fun hc => h0 (List.length_eq_zero.mp hc)
    unfold initKernel
    rw [if_neg hv4]
    have hres : resolveMasses sys.particleMasses force.getMasses =
        Except.error massMismatchErrMsg := by
      unfold resolveMasses
      rw [if_neg h0', if_neg hN]
    rw [hres]

/-- Witness for C4: concrete instantiation with a one-particle System and
an empty override array. -/
theorem C4_witness :
    (4:Int) ≤ 8 ∧
    ((force0.getMasses = [] →
      ∃ st, (initKernel sys0 force0 8 0 1).1 = Except.ok st ∧
        st.masses = sys0.particleMasses) ∧
     (force0.getMasses.length = sys0.particleMasses.length →
      ∃ st, (initKernel sys0 force0 8 0 1).1 = Except.ok st ∧
        st.masses = force0.getMasses) ∧
     (force0.getMasses ≠ [] →
      force0.getMasses.length ≠ sys0.particleMasses.length →
      (initKernel sys0 force0 8 0 1).1 = Except.error massMismatchErrMsg)) :=
  ⟨by decide, C4_mass_resolution sys0 force0 8 0 1 (by decide)⟩

/-- Claim C5: during initialization (past the version check) the ingestion
commands of the trace are exactly one `readInputLines` carrying the whole
script when the API version is greater than 7, and otherwise one
`readInputLine` per `strtok` token of the script, in order. -/
theorem C5_script_ingestion (sys : MMSystem) (force : PlumedForce)
    (apiVersion intraRank : Int) (dt : Rat) (hv : 4 ≤ apiVersion) :
    (initKernel sys force apiVersion intraRank dt).2.filter isIngestCmd =
      (if 7 < apiVersion then [PCmd.readInputLines force.getScript]
       else (strtokLines force.getScript).map PCmd.readInputLine) := by
  have hv4 : ¬ apiVersion < 4 := by omega
  rw [initKernel_snd_of_version _ _ _ _ _ hv4]
  unfold initTrace
  rw [List.filter_append, List.filter_append, preVersionTrace_filter_ingest,
    staticParamTrace_filter_ingest, ingestionCmds_filter_ingest]
  rfl

/-- Witness for C5: concrete instantiation at API version 4 (the
line-by-line branch) with a script containing CRLF and a blank line. -/
theorem C5_witness :
    (4:Int) ≤ 4 ∧
    (initKernel sys0 forceC5 4 0 1).2.filter isIngestCmd =
      (if (7:Int) < 4 then [PCmd.readInputLines forceC5.getScript]
       else (strtokLines forceC5.getScript).map PCmd.readInputLine) :=
  ⟨by decide, C5_script_ingestion sys0 forceC5 4 0 1 (by decide)⟩

/-- Claim C6: initialization fails with the unsupported-API-version error
exactly when the reported API version is strictly less than 4; for version
4 or greater the version check never raises this error. -/
theorem C6_version_check (sys : MMSystem) (force : PlumedForce)
    (apiVersion intraRank : Int) (dt : Rat) :
    (initKernel sys force apiVersion intraRank dt).1 =
      Except.error apiVersionErrMsg ↔ apiVersion < 4 := by
  constructor
  · intro h
    by_contra hv
    unfold initKernel at h
    rw [if_neg hv] at h
    split at h
    · rename_i e he
      simp only [Except.error.injEq] at h
      rw [resolveMasses_error_eq _ _ _ he] at h
      exact absurd h.symm (by decide)
    · simp at h
  · intro h
    unfold initKernel
    rw [if_pos h]

/-- Claim C7: for a System with no nonbonded-interaction force, the charge
cache is empty after initialization, and no `execute` call in any
subsequent sequence of calls issues a `setCharges` command. -/
theorem C7_no_nonbonded_no_charges (sys : MMSystem) (force : PlumedForce)
    (apiVersion intraRank : Int) (dt : Rat) (st : KernelState)
    (steps : List Int)
    (hnb : ∀ f ∈ sys.forces, f.isNonbonded = false)
    (hst : (initKernel sys force apiVersion intraRank dt).1 = Except.ok st) :
    st.charges = [] ∧
    (executeSeq st steps).2.countP isSetChargesCmd = 0 := by
  obtain ⟨-, hch, -, -, -⟩ :=
    initKernel_ok_fields sys force apiVersion intraRank dt st hst
  have hempty : st.charges = [] := by
    rw [hch]
    exact resolveCharges_of_no_nonbonded _ _ _ hnb
  exact ⟨hempty, executeSeq_countP_setCharges_of_empty st steps hempty⟩

/-- Witness for C7: the force-free one-particle System, two execute calls. -/
theorem C7_witness :
    ((∀ f ∈ sys0.forces, f.isNonbonded = false) ∧
     (initKernel sys0 force0 8 0 1).1 = Except.ok st0) ∧
    (st0.charges = [] ∧
     (executeSeq st0 [0, 1]).2.countP isSetChargesCmd = 0) :=
  ⟨⟨by decide, rfl⟩,
   C7_no_nonbonded_no_charges sys0 force0 8 0 1 st0 [0, 1] (by decide) rfl⟩

/-- Claim C8: across any sequence of `execute` calls after initialization,
the number of `setBox` commands is the number of calls when the System is
periodic and zero when it is not. -/
theorem C8_setBox_iff_periodic (sys : MMSystem) (force : PlumedForce)
    (apiVersion intraRank : Int) (dt : Rat) (st : KernelState)
    (steps : List Int)
    (hst : (initKernel sys force apiVersion intraRank dt).1 = Except.ok st) :
    (executeSeq st steps).2.countP isSetBoxCmd =
      if sys.periodic then steps.length else 0 := by
  obtain ⟨-, -, hp, -, -⟩ :=
    initKernel_ok_fields sys force apiVersion intraRank dt st hst
  rw [executeSeq_countP_setBox, hp]

/-- Witness for C8: the periodic one-particle System issues one `setBox`
per execute call (two calls here). -/
theorem C8_witness :
    (initKernel sysP force0 8 0 1).1 = Except.ok stP ∧
    (executeSeq stP [0, 1]).2.countP isSetBoxCmd =
      (if sysP.periodic then ([0, 1] : List Int).length else 0) :=
  ⟨rfl, C8_setBox_iff_periodic sysP force0 8 0 1 stP [0, 1] rfl⟩

/-- Claim C9: during an initialization that passes the version check, the
`setKbT` command is issued exactly once when the descriptor's temperature
is non-negative (defined), and never when it is negative (undefined, the
default -1). -/
theorem C9_setKbT_iff_temperature_defined (sys : MMSystem)
    (force : PlumedForce) (apiVersion intraRank : Int) (dt : Rat)
    (hv : 4 ≤ apiVersion) :
    (initKernel sys force apiVersion intraRank dt).2.countP isSetKbTCmd =
      if 0 ≤ force.getTemperature then 1 else 0 := by
  have hv4 : ¬ apiVersion < 4 := by omega
  rw [initKernel_snd_of_version _ _ _ _ _ hv4]
  unfold initTrace
  rw [List.countP_append, List.countP_append, preVersionTrace_countP_setKbT,
    staticParamTrace_countP_setKbT, ingestionCmds_countP_setKbT]
  have hB : (0:Rat) < BOLTZ := by norm_num [BOLTZ]
  have hiff : 0 ≤ force.getTemperature * BOLTZ ↔ 0 ≤ force.getTemperature := by
    constructor
    · intro h
      by_contra hneg
      push_neg at hneg
      nlinarith
    · intro h
      exact mul_nonneg h hB.le
  by_cases hT : 0 ≤ force.getTemperature
  · rw [if_pos (hiff.mpr hT), if_pos hT]
  · rw [if_neg (fun hc => hT (hiff.mp hc)), if_neg hT]

/-- Witness for C9: a descriptor with temperature 300 K gets exactly one
`setKbT` command. -/
theorem C9_witness :
    (4:Int) ≤ 8 ∧
    (initKernel sys0 forceT 8 0 1).2.countP isSetKbTCmd =
      (if 0 ≤ forceT.getTemperature then 1 else 0) :=
  ⟨by decide, C9_setKbT_iff_temperature_defined sys0 forceT 8 0 1 (by decide)⟩

/-- Claim C10: `PlumedForce::usesPeriodicBoundaryConditions` returns false
for every descriptor, whatever its configuration. -/
theorem C10_descriptor_never_periodic (f : PlumedForce) :
    f.usesPeriodicBoundaryConditions = false := rfl
